import Mathlib

/-!
Verification of the conversion core of `src/App.jsx` (PDF2IMG).

Shallow embedding conventions:

* JavaScript numbers that hold page dimensions, scales and qualities are
  modelled as exact rationals (`ℚ`); page counts, page indices and pixel
  bounds are natural numbers.
* `Math.round` is modelled as half-up rounding on `ℚ`.
* Assigning a JS number to `canvas.width` / `canvas.height` goes through the
  HTML `unsigned long` coercion (ECMAScript ToUint32), which truncates the
  fractional part; for the values that occur here (non-negative, far below
  2^32) this is the floor, and that is how it is modelled.
* The external collaborators (pdf.js page handles and rasterization, canvas
  encoding, JSZip, FileSaver) are modelled through the data they hand back to
  the core: a page exposes intrinsic dimensions, an optional render/encode
  failure, and the encoded data URL as a function of MIME type and quality;
  delivery is modelled as a value describing the file or archive handed to
  the external saver.
-/

namespace PDF2IMG

/-- Run status of a conversion, mirroring the string states of App.jsx
line 73: idle, processing, done, error. -/
inductive Status where
  | idle
  | processing
  | done
  | error
  deriving DecidableEq, Repr

/-- The settings record of App.jsx lines 79-84: `format` is the string
"png" or "jpeg"; `quality` and `scale` are JS numbers, modelled as
rationals; `maxPageWidth` is a non-negative pixel bound, 0 meaning
unconstrained. -/
structure Settings where
  format : String
  quality : ℚ
  scale : ℚ
  maxPageWidth : ℕ
  deriving DecidableEq, Repr

/-- One page of a loaded document, as seen through the external pdf.js and
canvas APIs: intrinsic (unscaled) width and height, the outcome of the
external rasterizer/encoder (`renderError = some msg` models the
`page.render` promise rejecting with message `msg`), and the data URL the
external `canvas.toDataURL` produces for a given MIME type and quality. -/
structure PageSpec where
  width : ℚ
  height : ℚ
  renderError : Option String
  encode : String → ℚ → String

/-- A loaded document (the `pdfDoc` object): a page count and, per 1-based
index, a page. Indices outside `[1, numPages]` are never consulted by the
core. -/
structure Document where
  numPages : ℕ
  pages : ℕ → PageSpec

/-- The record pushed into the `images` array for each converted page,
App.jsx lines 166-171. -/
structure PageResult where
  page : ℕ
  dataUrl : String
  width : ℕ
  height : ℕ
  deriving DecidableEq, Repr

/-- The reactive state of the app that the conversion pipeline mutates:
status, progress, the published result list, and the error message. -/
structure AppState where
  status : Status
  progress : ℕ
  convertedImages : List PageResult
  errorMsg : String
  deriving DecidableEq, Repr

/-- A pdf.js viewport: the scale actually applied and the resulting pixel
dimensions (still JS numbers, modelled as rationals). -/
structure Viewport where
  scale : ℚ
  width : ℚ
  height : ℚ
  deriving DecidableEq, Repr

/-- Model of the external `page.getViewport` with a scale argument: for an
unrotated page the viewport dimensions are the intrinsic dimensions times
the scale (spec section 4.1: w0 = intrinsicWidth × baseScale). -/
def getViewport (w h scale : ℚ) : Viewport :=
  ⟨scale, w * scale, h * scale⟩

/-- The viewport planning of App.jsx lines 141-148: take the viewport at the
requested scale; if a positive `maxPageWidth` is set and the viewport is
wider, recompute the viewport at scale × (maxPageWidth / viewport.width). -/
def planViewport (w h scale : ℚ) (maxPageWidth : ℕ) : Viewport :=
  let vp := getViewport w h scale
  if 0 < maxPageWidth ∧ (maxPageWidth : ℚ) < vp.width then
    getViewport w h (scale * ((maxPageWidth : ℚ) / vp.width))
  else
    vp

/-- The HTML canvas dimension actually stored by `canvas.width = q` /
`canvas.height = q` (App.jsx lines 153-154): the float is coerced to an
`unsigned long` by truncation, which is the floor for the non-negative
values below 2^32 used here. -/
def canvasDim (q : ℚ) : ℕ :=
  (⌊q⌋).toNat

/-- JavaScript `Math.round`: half-up rounding, round(q) = floor(q + 1/2). -/
def jsRound (q : ℚ) : ℤ :=
  ⌊q + 1 / 2⌋

/-- JavaScript `Math.round` of a non-negative quantity, as a natural
number. -/
def jsRoundNat (q : ℚ) : ℕ :=
  (jsRound q).toNat

/-- The MIME type selection of App.jsx line 163. -/
def mimeType (format : String) : String :=
  if format = "png" then "image/png" else "image/jpeg"

/-- The progress value reported after page `i` of `N` pages, App.jsx
line 174: `Math.round((i / totalPages) * 100)`. -/
def progVal (N i : ℕ) : ℕ :=
  jsRoundNat ((i : ℚ) / (N : ℚ) * 100)

/-- The `PageResult` built for page `i`, App.jsx lines 139-171: the canvas is
sized from the planned viewport, the page is rendered into it, and the
encoded image is produced by the external `canvas.toDataURL`. -/
def mkResult (d : Document) (st : Settings) (i : ℕ) : PageResult :=
  let p := d.pages i
  let vp := planViewport p.width p.height st.scale st.maxPageWidth
  { page := i
    dataUrl := p.encode (mimeType st.format) st.quality
    width := canvasDim vp.width
    height := canvasDim vp.height }

/-- Outcome of the page loop: the local `images` array, the sequence of
reported progress values, the final progress value, and the index and
message of the first failing page, if any. -/
structure LoopOut where
  images : List PageResult
  trace : List ℕ
  progress : ℕ
  failure : Option (ℕ × String)
  deriving DecidableEq, Repr

/-- The for-loop of App.jsx lines 138-176, over the listed page indices.
Each successful iteration renders the page, pushes a `PageResult` and
reports `progVal`; the first page whose external render/encode fails aborts
the loop (the thrown error is caught by the surrounding try/catch). -/
def convLoop (d : Document) (st : Settings) (N : ℕ) :
    List ℕ → List PageResult → List ℕ → ℕ → LoopOut
  | [], imgs, tr, pr => ⟨imgs, tr, pr, none⟩
  | i :: rest, imgs, tr, pr =>
    match (d.pages i).renderError with
    | some m => ⟨imgs, tr, pr, some (i, m)⟩
    | none =>
        convLoop d st N rest (imgs ++ [mkResult d st i])
          (tr ++ [progVal N i]) (progVal N i)

/-- App.jsx lines 128-185, `startConversion`: a no-op when no document is
loaded; otherwise reset progress and results, run the page loop, and either
publish the images and become `done`, or set the error message and become
`error` (the local `images` array is not published in that case). Returns
the final state together with the sequence of progress values reported
during the run. -/
def startConversion (pdfDoc : Option Document) (st : Settings) (s : AppState) :
    AppState × List ℕ :=
  match pdfDoc with
  | none => (s, [])
  | some d =>
    let s1 : AppState :=
      { s with status := Status.processing, progress := 0, convertedImages := [] }
    let out := convLoop d st d.numPages (List.range' 1 d.numPages) [] [] 0
    (match out.failure with
      | none =>
          { s1 with
              progress := out.progress
              convertedImages := out.images
              status := Status.done }
      | some (_, m) =>
          { s1 with
              progress := out.progress
              errorMsg := "转换过程中发生错误: " ++ m
              status := Status.error },
      out.trace)

/-- What `downloadAll` hands to the external delivery capability: either one
named file (the saveAs of App.jsx line 193, data first, then filename) or a
zip archive (entries as path/payload pairs, then the archive name). -/
inductive Delivery where
  | single (data : String) (filename : String)
  | bundle (entries : List (String × String)) (archiveName : String)
  deriving DecidableEq, Repr

/-- Decimal digit characters of a natural number: the model of JavaScript
number-to-string conversion for the non-negative integral page indices
interpolated by the template literals of App.jsx lines 201 and 433. -/
def natChars (n : ℕ) : List Char :=
  if n = 0 then ['0'] else ((Nat.digits 10 n).map Nat.digitChar).reverse

/-- Decimal string of a natural number (JS number-to-string for the page
indices used by the packager). -/
def natStr (n : ℕ) : String :=
  String.mk (natChars n)

/-- The zip entry name for one page, App.jsx lines 197-201: the `images`
folder plus the per-page file name `page-` index `.` format. -/
def entryName (format : String) (page : ℕ) : String :=
  "images/page-" ++ natStr page ++ "." ++ format

/-- Split of a character list at every comma, the model of JavaScript
`String.prototype.split` with the separator "," used by App.jsx line 200. -/
def splitComma : List Char → List (List Char)
  | [] => [[]]
  | c :: cs =>
    match splitComma cs with
    | [] => [[]]
    | f :: rest => if c = ',' then [] :: f :: rest else (c :: f) :: rest

/-- The base64 payload of a data URL, App.jsx line 200:
`img.dataUrl.split(',')[1]`. Data URLs always contain a comma; on a
comma-free string JS would index past the split result, modelled as "". -/
def base64Payload (s : String) : String :=
  String.mk ((splitComma s.data).getD 1 [])

/-- Boolean test that `pat` occurs at the head of the second list. -/
def leadsWith : List Char → List Char → Bool
  | [], _ => true
  | _ :: _, [] => false
  | p :: ps, c :: cs => p == c && leadsWith ps cs

/-- Replacement of the first occurrence of a non-empty pattern in a
character list, used to model JavaScript `String.prototype.replace` with a
string pattern: only the first, case-sensitive occurrence is replaced, and
the string is unchanged when the pattern does not occur. -/
def listReplaceFirst : List Char → List Char → List Char → List Char
  | [], _, _ => []
  | c :: cs, pat, rep =>
    if leadsWith pat (c :: cs) then rep ++ (c :: cs).drop pat.length
    else c :: listReplaceFirst cs pat rep

/-- JavaScript `s.replace(pat, rep)` for string patterns (first occurrence
only), on Lean strings; faithful for the non-empty pattern ".pdf" used by
App.jsx line 205. -/
def jsReplaceFirst (s pat rep : String) : String :=
  String.mk (listReplaceFirst s.data pat.data rep.data)

/-- App.jsx lines 188-207, `downloadAll`: nothing is delivered when no
results exist; a lone result is saved as `page-1.` format (the index is the
literal 1 in the source); two or more results are zipped under the `images`
folder and the archive is named from the file name with the first
occurrence of ".pdf" removed, plus "-images.zip". -/
def downloadAll (convertedImages : List PageResult) (st : Settings)
    (fileName : String) : Option Delivery :=
  match convertedImages with
  | [] => none
  | [img] => some (Delivery.single img.dataUrl ("page-1." ++ st.format))
  | imgs =>
      some (Delivery.bundle
        (imgs.map fun img =>
          (entryName st.format img.page, base64Payload img.dataUrl))
        (jsReplaceFirst fileName ".pdf" "" ++ "-images.zip"))

/-- The packager-facing part of the app state: the published results, the
settings and the loaded file's name. -/
structure PackState where
  convertedImages : List PageResult
  settings : Settings
  fileName : String
  deriving Repr

/-- One invocation of `downloadAll` seen as a state transition: the app
state is read but never written by the packager. -/
def downloadAllStep (s : PackState) : PackState × Option Delivery :=
  (s, downloadAll s.convertedImages s.settings s.fileName)

/-- Boolean test for a single-file delivery. -/
def isSingle : Option Delivery → Bool
  | some (Delivery.single _ _) => true
  | _ => false

/-- Boolean test for an archive delivery. -/
def isBundle : Option Delivery → Bool
  | some (Delivery.bundle _ _) => true
  | _ => false

/-- Archive name of a bundle delivery, if any. -/
def archiveNameOf : Option Delivery → Option String
  | some (Delivery.bundle _ an) => some an
  | _ => none

/-- Modelled from the spec, for comparison with the code: the spec section
4.4 says the archive base name is "the source document's name with its
extension stripped", i.e. everything before the last dot (the name
unchanged when it contains no dot). -/
def specBaseName (s : String) : String :=
  let r := s.data.reverse
  if r.contains '.' then String.mk (((r.dropWhile (· ≠ '.')).drop 1).reverse)
  else s

/-! Helper lemmas about the viewport planner and the canvas coercion. -/

lemma planViewport_uncapped (w h s : ℚ) : planViewport w h s 0 = getViewport w h s := by
  simp [planViewport]

lemma planViewport_capped (w h s : ℚ) (maxW : ℕ) (hm : 0 < maxW)
    (hcap : (maxW : ℚ) < w * s) :
    planViewport w h s maxW = getViewport w h (s * ((maxW : ℚ) / (w * s))) := by
  simp only [planViewport, getViewport]
  rw [if_pos ⟨hm, hcap⟩]

lemma canvasDim_cast (q : ℚ) (hq : 0 ≤ q) : (canvasDim q : ℚ) = ((⌊q⌋ : ℤ) : ℚ) := by
  have h0 : (0 : ℤ) ≤ ⌊q⌋ := Int.floor_nonneg.mpr hq
  rw [canvasDim, ← Int.cast_natCast (R := ℚ), Int.toNat_of_nonneg h0]

lemma canvasDim_le (q : ℚ) (hq : 0 ≤ q) : (canvasDim q : ℚ) ≤ q := by
  rw [canvasDim_cast q hq]
  exact Int.floor_le q

lemma canvasDim_gt (q : ℚ) (hq : 0 ≤ q) : q - 1 < (canvasDim q : ℚ) := by
  rw [canvasDim_cast q hq]
  exact Int.sub_one_lt_floor q

lemma canvasDim_natCast (n : ℕ) : canvasDim (n : ℚ) = n := by
  simp [canvasDim]

/-- Claim C3 as the spec states it is refuted by a concrete input: at
intrinsic width 611, baseScale 1.5 and no width cap, the scale-only width is
916.5; the code records the truncated 916 while round(611 × 1.5) = 917. -/
theorem c3_roundingCounterexample :
    canvasDim (planViewport 611 792 (3 / 2) 0).width = 916 ∧
    jsRound ((611 : ℚ) * (3 / 2)) = 917 ∧
    canvasDim (planViewport 611 792 (3 / 2) 0).width ≠
      (jsRound ((611 : ℚ) * (3 / 2))).toNat := by
  have h1 : canvasDim (planViewport 611 792 (3 / 2) 0).width = 916 := by
    with_unfolding_all rfl
  have h2 : jsRound ((611 : ℚ) * (3 / 2)) = 917 := by
    with_unfolding_all rfl
  refine ⟨h1, h2, ?_⟩
  rw [h1, h2]
  decide

/-- Claim C3, amended: for positive intrinsic dimensions and a positive base
scale, with maxWidthPixels = 0 the planner keeps effectiveScale = baseScale
and the recorded dimensions are the truncations (not the roundings) of
intrinsicWidth × baseScale and intrinsicHeight × baseScale; each recorded
dimension lies within 1 below the exact value, so the aspect ratio is
preserved within rounding tolerance. -/
theorem c3_uncappedPlan (w h s : ℚ) (hw : 0 < w) (hh : 0 < h) (hs : 0 < s) :
    (planViewport w h s 0).scale = s ∧
    canvasDim (planViewport w h s 0).width = (⌊w * s⌋).toNat ∧
    canvasDim (planViewport w h s 0).height = (⌊h * s⌋).toNat ∧
    (canvasDim (planViewport w h s 0).width : ℚ) ≤ w * s ∧
    w * s - 1 < (canvasDim (planViewport w h s 0).width : ℚ) ∧
    (canvasDim (planViewport w h s 0).height : ℚ) ≤ h * s ∧
    h * s - 1 < (canvasDim (planViewport w h s 0).height : ℚ) := by
  have hws : 0 ≤ w * s := le_of_lt (mul_pos hw hs)
  have hhs : 0 ≤ h * s := le_of_lt (mul_pos hh hs)
  rw [planViewport_uncapped]
  exact ⟨rfl, rfl, rfl, canvasDim_le _ hws, canvasDim_gt _ hws,
    canvasDim_le _ hhs, canvasDim_gt _ hhs⟩

/-- Witness for c3_uncappedPlan at a Letter-size page, scale 2. -/
theorem c3_uncappedPlanWitness :
    (0 : ℚ) < 612 ∧ (0 : ℚ) < 792 ∧ (0 : ℚ) < 2 ∧
    ((planViewport 612 792 2 0).scale = 2 ∧
      canvasDim (planViewport 612 792 2 0).width = (⌊(612 : ℚ) * 2⌋).toNat ∧
      canvasDim (planViewport 612 792 2 0).height = (⌊(792 : ℚ) * 2⌋).toNat ∧
      (canvasDim (planViewport 612 792 2 0).width : ℚ) ≤ 612 * 2 ∧
      (612 : ℚ) * 2 - 1 < (canvasDim (planViewport 612 792 2 0).width : ℚ) ∧
      (canvasDim (planViewport 612 792 2 0).height : ℚ) ≤ 792 * 2 ∧
      (792 : ℚ) * 2 - 1 < (canvasDim (planViewport 612 792 2 0).height : ℚ)) :=
  ⟨by norm_num, by norm_num, by norm_num,
    c3_uncappedPlan 612 792 2 (by norm_num) (by norm_num) (by norm_num)⟩

/-- Claim C4: when a positive maxWidthPixels is exceeded by the scale-only
width, the planner reduces the effective scale to
baseScale × (maxWidthPixels / (intrinsicWidth × baseScale)); the recorded
width is then exactly maxWidthPixels (hence does not exceed it) and the
recorded height is the same-ratio height within 1 below the exact value, so
the aspect ratio is preserved within rounding tolerance. -/
theorem c4_cappedPlan (w h s : ℚ) (maxW : ℕ) (hw : 0 < w) (hh : 0 < h)
    (hs : 0 < s) (hm : 0 < maxW) (hcap : (maxW : ℚ) < w * s) :
    (planViewport w h s maxW).scale = s * ((maxW : ℚ) / (w * s)) ∧
    canvasDim (planViewport w h s maxW).width = maxW ∧
    canvasDim (planViewport w h s maxW).width ≤ maxW ∧
    (canvasDim (planViewport w h s maxW).height : ℚ) ≤
      h * (s * ((maxW : ℚ) / (w * s))) ∧
    h * (s * ((maxW : ℚ) / (w * s))) - 1 <
      (canvasDim (planViewport w h s maxW).height : ℚ) := by
  have hws : (0 : ℚ) < w * s := mul_pos hw hs
  have hwidth : w * (s * ((maxW : ℚ) / (w * s))) = (maxW : ℚ) := by
    field_simp
    ring
  have hht : 0 ≤ h * (s * ((maxW : ℚ) / (w * s))) := by
    have : (0 : ℚ) ≤ (maxW : ℚ) / (w * s) := le_of_lt (div_pos (by exact_mod_cast hm) hws)
    positivity
  rw [planViewport_capped w h s maxW hm hcap]
  refine ⟨rfl, ?_, ?_, canvasDim_le _ hht, canvasDim_gt _ hht⟩
  · show canvasDim (w * (s * ((maxW : ℚ) / (w * s)))) = maxW
    rw [hwidth, canvasDim_natCast]
  · show canvasDim (w * (s * ((maxW : ℚ) / (w * s)))) ≤ maxW
    rw [hwidth, canvasDim_natCast]

/-! Concrete fixtures used by witnesses and counterexamples. -/

/-- A page that always renders and encodes successfully (Letter size in
points). -/
def okPage : PageSpec :=
  ⟨612, 792, none, fun _ _ => "data:image/png;base64,AAAA"⟩

/-- A page whose external rasterization fails with message "boom". -/
def badPage : PageSpec :=
  ⟨612, 792, some "boom", fun _ _ => ""⟩

/-- Default-like settings: PNG, quality 0.9, scale 2, no width cap. -/
def st0 : Settings :=
  ⟨"png", 9 / 10, 2, 0⟩

/-- The idle app state before a run. -/
def app0 : AppState :=
  ⟨Status.idle, 0, [], ""⟩

/-- A three-page document whose pages all convert. -/
def doc3 : Document :=
  ⟨3, fun _ => okPage⟩

/-- A two-page document whose second page fails to render. -/
def doc2bad : Document :=
  ⟨2, fun i => if i = 2 then badPage else okPage⟩

/-- A 200-page document whose last page fails to render. -/
def doc200 : Document :=
  ⟨200, fun i => if i = 200 then badPage else okPage⟩

/-! Helper lemmas about the conversion loop. -/

lemma convLoop_ok (d : Document) (st : Settings) (N : ℕ) (idxs : List ℕ) :
    ∀ (acc : List PageResult) (tr : List ℕ) (pr : ℕ),
      (∀ i ∈ idxs, (d.pages i).renderError = none) →
      convLoop d st N idxs acc tr pr =
        ⟨acc ++ idxs.map (mkResult d st), tr ++ idxs.map (progVal N),
          (idxs.map (progVal N)).getLastD pr, none⟩ := by
  induction idxs with
  | nil =>
    intro acc tr pr _
    simp [convLoop]
  | cons i rest ih =>
    intro acc tr pr hok
    have hi : (d.pages i).renderError = none := hok i (by simp)
    have hrest : ∀ j ∈ rest, (d.pages j).renderError = none :=
      fun j hj => hok j (List.mem_cons_of_mem i hj)
    simp only [convLoop, hi]
    rw [ih _ _ _ hrest]
    simp only [List.map_cons, List.getLastD_cons, List.append_assoc,
      List.singleton_append]

lemma convLoop_fail (d : Document) (st : Settings) (N : ℕ) (pre : List ℕ)
    (k : ℕ) (m : String) (rest : List ℕ) :
    ∀ (acc : List PageResult) (tr : List ℕ) (pr : ℕ),
      (∀ i ∈ pre, (d.pages i).renderError = none) →
      (d.pages k).renderError = some m →
      convLoop d st N (pre ++ k :: rest) acc tr pr =
        ⟨acc ++ pre.map (mkResult d st), tr ++ pre.map (progVal N),
          (pre.map (progVal N)).getLastD pr, some (k, m)⟩ := by
  induction pre with
  | nil =>
    intro acc tr pr _ hk
    simp only [List.nil_append, convLoop, hk]
    simp
  | cons i rest' ih =>
    intro acc tr pr hok hk
    have hi : (d.pages i).renderError = none := hok i (by simp)
    have hrest : ∀ j ∈ rest', (d.pages j).renderError = none :=
      fun j hj => hok j (List.mem_cons_of_mem i hj)
    simp only [List.cons_append, convLoop, hi, List.append_eq]
    rw [ih _ _ _ hrest hk]
    simp only [List.map_cons, List.getLastD_cons, List.append_assoc,
      List.singleton_append]

lemma page_mkResult (d : Document) (st : Settings) (i : ℕ) :
    (mkResult d st i).page = i := rfl

lemma progVal_last (N : ℕ) (hN : 1 ≤ N) : progVal N N = 100 := by
  have hN0 : (N : ℚ) ≠ 0 := Nat.cast_ne_zero.mpr (Nat.one_le_iff_ne_zero.mp hN)
  have h1 : ((N : ℚ) / (N : ℚ) * 100) = 100 := by
    rw [div_self hN0]
    ring
  rw [progVal, h1, jsRoundNat, jsRound]
  have : ⌊(100 : ℚ) + 1 / 2⌋ = 100 := by
    rw [Int.floor_eq_iff]
    norm_num
  rw [this]
  rfl

/-- Anatomy of a fully successful run, shared by several claims below: all
pages of the document convert, so the loop walks every index, the images are
published in index order, the status becomes done and the progress trace is
the rounded percentage after each page. -/
lemma startConversion_ok (d : Document) (st : Settings) (s : AppState)
    (hN : 1 ≤ d.numPages)
    (hok : ∀ i, 1 ≤ i → i ≤ d.numPages → (d.pages i).renderError = none) :
    startConversion (some d) st s =
      ({ status := Status.done
         progress := 100
         convertedImages := (List.range' 1 d.numPages).map (mkResult d st)
         errorMsg := s.errorMsg },
        (List.range' 1 d.numPages).map (progVal d.numPages)) := by
  have hok' : ∀ i ∈ List.range' 1 d.numPages, (d.pages i).renderError = none := by
    intro i hi
    obtain ⟨j, hj, rfl⟩ := List.mem_range'.mp hi
    exact hok _ (by omega) (by omega)
  rw [startConversion]
  rw [convLoop_ok d st d.numPages _ _ _ _ hok']
  have hNne : d.numPages ≠ 0 := Nat.one_le_iff_ne_zero.mp hN
  simp only [List.nil_append]
  simp [List.getLast?_range', hNne]
  exact progVal_last _ hN

/-- Witness for c4_cappedPlan at the spec's concrete scenario: intrinsic
width 612, baseScale 3, maxWidthPixels 1200 gives final width exactly
1200. -/
theorem c4_cappedPlanWitness :
    (0 : ℚ) < 612 ∧ (0 : ℚ) < 792 ∧ (0 : ℚ) < 3 ∧ 0 < 1200 ∧
    ((1200 : ℕ) : ℚ) < 612 * 3 ∧
    canvasDim (planViewport 612 792 3 1200).width = 1200 ∧
    (planViewport 612 792 3 1200).scale = 3 * (((1200 : ℕ) : ℚ) / (612 * 3)) :=
  ⟨by norm_num, by norm_num, by norm_num, by norm_num, by norm_num,
    (c4_cappedPlan 612 792 3 1200 (by norm_num) (by norm_num) (by norm_num)
      (by norm_num) (by norm_num)).2.1,
    (c4_cappedPlan 612 792 3 1200 (by norm_num) (by norm_num) (by norm_num)
      (by norm_num) (by norm_num)).1⟩

/-- Anatomy of a run whose page k is the first to fail: the loop converts
pages 1 through k-1, stops at k, and the catch branch publishes nothing:
the caller-visible result list stays empty. -/
lemma startConversion_fail (d : Document) (st : Settings) (s : AppState)
    (k : ℕ) (m : String) (hk1 : 1 ≤ k) (hkN : k ≤ d.numPages)
    (hok : ∀ i, 1 ≤ i → i < k → (d.pages i).renderError = none)
    (hfail : (d.pages k).renderError = some m) :
    convLoop d st d.numPages (List.range' 1 d.numPages) [] [] 0 =
      ⟨(List.range' 1 (k - 1)).map (mkResult d st),
        (List.range' 1 (k - 1)).map (progVal d.numPages),
        ((List.range' 1 (k - 1)).map (progVal d.numPages)).getLastD 0,
        some (k, m)⟩ ∧
    startConversion (some d) st s =
      ({ status := Status.error
         progress := ((List.range' 1 (k - 1)).map (progVal d.numPages)).getLastD 0
         convertedImages := []
         errorMsg := "转换过程中发生错误: " ++ m },
        (List.range' 1 (k - 1)).map (progVal d.numPages)) := by
  have hsplit : List.range' 1 d.numPages =
      List.range' 1 (k - 1) ++ k :: List.range' (k + 1) (d.numPages - k) := by
    have h1 : List.range' k (d.numPages - k + 1) =
        k :: List.range' (k + 1) (d.numPages - k) := List.range'_succ k (d.numPages - k) 1
    have h2 := List.range'_append_1 1 (k - 1) (d.numPages - k + 1)
    rw [show 1 + (k - 1) = k from by omega] at h2
    rw [show d.numPages - k + 1 + (k - 1) = d.numPages from by omega] at h2
    rw [← h2, h1]
  have hok' : ∀ i ∈ List.range' 1 (k - 1), (d.pages i).renderError = none := by
    intro i hi
    obtain ⟨j, hj, rfl⟩ := List.mem_range'.mp hi
    exact hok _ (by omega) (by omega)
  have hloop := convLoop_fail d st d.numPages (List.range' 1 (k - 1)) k m
    (List.range' (k + 1) (d.numPages - k)) [] [] 0 hok' hfail
  simp only [List.nil_append] at hloop
  have hloop' : convLoop d st d.numPages (List.range' 1 d.numPages) [] [] 0 =
      ⟨(List.range' 1 (k - 1)).map (mkResult d st),
        (List.range' 1 (k - 1)).map (progVal d.numPages),
        ((List.range' 1 (k - 1)).map (progVal d.numPages)).getLastD 0,
        some (k, m)⟩ := by
    rw [hsplit, hloop]
  refine ⟨hloop', ?_⟩
  rw [startConversion, hloop']

/-- Claim C1: for a document with N ≥ 1 pages and any settings, a run in
which every page converts produces exactly N PageResults in ascending page
index order, ends with status done and progress 100, and reports the
progress sequence round(i/N × 100) for i = 1, ..., N, ending at 100. -/
theorem c1_successfulRun (d : Document) (st : Settings) (s : AppState)
    (hN : 1 ≤ d.numPages)
    (hok : ∀ i, 1 ≤ i → i ≤ d.numPages → (d.pages i).renderError = none) :
    (startConversion (some d) st s).1.status = Status.done ∧
    (startConversion (some d) st s).1.convertedImages.length = d.numPages ∧
    (startConversion (some d) st s).1.convertedImages.map PageResult.page =
      List.range' 1 d.numPages ∧
    (startConversion (some d) st s).2 =
      (List.range' 1 d.numPages).map (progVal d.numPages) ∧
    (startConversion (some d) st s).2.getLastD 0 = 100 ∧
    (startConversion (some d) st s).1.progress = 100 := by
  rw [startConversion_ok d st s hN hok]
  have hNne : d.numPages ≠ 0 := Nat.one_le_iff_ne_zero.mp hN
  refine ⟨rfl, by simp, ?_, rfl, ?_, rfl⟩
  · rw [List.map_map]
    have hcomp : (PageResult.page ∘ mkResult d st) = id := funext fun i => rfl
    rw [hcomp, List.map_id]
  · simp [List.getLast?_range', hNne]
    exact progVal_last _ hN

/-- Witness for c1_successfulRun: a three-page all-good document. -/
theorem c1_successfulRunWitness :
    1 ≤ doc3.numPages ∧
    ((startConversion (some doc3) st0 app0).1.status = Status.done ∧
      (startConversion (some doc3) st0 app0).1.convertedImages.length = doc3.numPages ∧
      (startConversion (some doc3) st0 app0).1.convertedImages.map PageResult.page =
        List.range' 1 doc3.numPages ∧
      (startConversion (some doc3) st0 app0).2 =
        (List.range' 1 doc3.numPages).map (progVal doc3.numPages) ∧
      (startConversion (some doc3) st0 app0).2.getLastD 0 = 100 ∧
      (startConversion (some doc3) st0 app0).1.progress = 100) :=
  ⟨by decide, c1_successfulRun doc3 st0 app0 (by decide) (fun _ _ _ => rfl)⟩

/-- Claim C2 as stated is refuted by a concrete run: on the two-page
document whose page 2 fails, the run ends in error but the caller-visible
result list is empty, not the claimed k - 1 = 1 results. -/
theorem c2_discardCounterexample :
    (startConversion (some doc2bad) st0 app0).1.status = Status.error ∧
    (startConversion (some doc2bad) st0 app0).1.convertedImages = [] ∧
    (startConversion (some doc2bad) st0 app0).1.convertedImages.length ≠ 2 - 1 := by
  have himg : (startConversion (some doc2bad) st0 app0).1.convertedImages = [] := by
    with_unfolding_all rfl
  refine ⟨?_, himg, ?_⟩
  · with_unfolding_all rfl
  · rw [himg]
    decide

/-- Claim C2, amended: if page k is the first to fail, the run ends in
error and the loop had produced exactly k - 1 PageResults, for pages 1
through k - 1 and none later; but these are discarded rather than kept
available: the caller-visible result list is left empty (it was cleared at
run start), and only the error message with the failure cause survives. -/
theorem c2_failureRun (d : Document) (st : Settings) (s : AppState)
    (k : ℕ) (m : String) (hk1 : 1 ≤ k) (hkN : k ≤ d.numPages)
    (hok : ∀ i, 1 ≤ i → i < k → (d.pages i).renderError = none)
    (hfail : (d.pages k).renderError = some m) :
    (startConversion (some d) st s).1.status = Status.error ∧
    (startConversion (some d) st s).1.convertedImages = [] ∧
    (convLoop d st d.numPages (List.range' 1 d.numPages) [] [] 0).images.length
      = k - 1 ∧
    (convLoop d st d.numPages (List.range' 1 d.numPages) [] [] 0).images.map
      PageResult.page = List.range' 1 (k - 1) ∧
    (convLoop d st d.numPages (List.range' 1 d.numPages) [] [] 0).failure
      = some (k, m) ∧
    (startConversion (some d) st s).1.errorMsg = "转换过程中发生错误: " ++ m := by
  obtain ⟨hloop, hrun⟩ := startConversion_fail d st s k m hk1 hkN hok hfail
  rw [hloop, hrun]
  refine ⟨rfl, rfl, by simp, ?_, rfl, rfl⟩
  rw [List.map_map]
  have hcomp : (PageResult.page ∘ mkResult d st) = id := funext fun i => rfl
  rw [hcomp, List.map_id]

/-- Witness for c2_failureRun: the two-page document failing at page 2. -/
theorem c2_failureRunWitness :
    1 ≤ 2 ∧ 2 ≤ doc2bad.numPages ∧ (doc2bad.pages 2).renderError = some "boom" ∧
    ((startConversion (some doc2bad) st0 app0).1.status = Status.error ∧
      (startConversion (some doc2bad) st0 app0).1.convertedImages = [] ∧
      (convLoop doc2bad st0 doc2bad.numPages (List.range' 1 doc2bad.numPages)
        [] [] 0).images.length = 2 - 1 ∧
      (convLoop doc2bad st0 doc2bad.numPages (List.range' 1 doc2bad.numPages)
        [] [] 0).images.map PageResult.page = List.range' 1 (2 - 1) ∧
      (convLoop doc2bad st0 doc2bad.numPages (List.range' 1 doc2bad.numPages)
        [] [] 0).failure = some (2, "boom") ∧
      (startConversion (some doc2bad) st0 app0).1.errorMsg
        = "转换过程中发生错误: " ++ "boom") :=
  ⟨by decide, by decide, rfl,
    c2_failureRun doc2bad st0 app0 2 "boom" (by decide) (by decide)
      (fun i h1 h2 => by
        have : i = 1 := by omega
        rw [this]
        rfl)
      rfl⟩

/-- Claim C9: starting a conversion with no loaded document is a no-op: the
state is returned unchanged and no progress is reported. -/
theorem c9_noDocument (st : Settings) (s : AppState) :
    startConversion none st s = (s, []) := rfl

/-! Helper lemmas about progress monotonicity. -/

lemma progVal_mono (N : ℕ) (hN : 0 < N) (a : ℕ) : progVal N a ≤ progVal N (a + 1) := by
  unfold progVal jsRoundNat jsRound
  have hNQ : (0 : ℚ) < (N : ℚ) := by exact_mod_cast hN
  have hle : (a : ℚ) / (N : ℚ) * 100 + 1 / 2 ≤
      ((a + 1 : ℕ) : ℚ) / (N : ℚ) * 100 + 1 / 2 := by
    push_cast
    gcongr
    linarith
  exact Int.toNat_le_toNat (Int.floor_le_floor hle)

lemma chain_map_range' (f : ℕ → ℕ) (hf : ∀ a, f a ≤ f (a + 1)) (m : ℕ) :
    ∀ (s x : ℕ), x ≤ f s → List.Chain' (· ≤ ·) (x :: (List.range' s m).map f) := by
  induction m with
  | zero =>
    intro s x _
    simp
  | succ m ih =>
    intro s x hx
    rw [List.range'_succ, List.map_cons]
    exact List.chain'_cons.mpr ⟨hx, ih (s + 1) (f s) (hf s)⟩

lemma convLoop_trace_take (d : Document) (st : Settings) (N : ℕ) (idxs : List ℕ) :
    ∀ (acc : List PageResult) (tr : List ℕ) (pr : ℕ),
      ∃ j, (convLoop d st N idxs acc tr pr).trace =
        tr ++ (idxs.take j).map (progVal N) := by
  induction idxs with
  | nil =>
    intro acc tr pr
    exact ⟨0, by simp [convLoop]⟩
  | cons i rest ih =>
    intro acc tr pr
    cases hre : (d.pages i).renderError with
    | some m => exact ⟨0, by simp [convLoop, hre]⟩
    | none =>
      obtain ⟨j, hj⟩ := ih (acc ++ [mkResult d st i]) (tr ++ [progVal N i]) (progVal N i)
      refine ⟨j + 1, ?_⟩
      simp only [convLoop, hre]
      rw [hj]
      simp only [List.take_succ_cons, List.map_cons, List.append_assoc,
        List.singleton_append]

lemma chain_progVal (N : ℕ) :
    List.Chain' (· ≤ ·) (0 :: (List.range' 1 N).map (progVal N)) := by
  cases N with
  | zero => simp
  | succ M =>
    exact chain_map_range' (progVal (M + 1)) (progVal_mono (M + 1) (Nat.succ_pos M))
      (M + 1) 1 0 (Nat.zero_le _)

lemma trace_chain (pdfDoc : Option Document) (st : Settings) (s : AppState) :
    List.Chain' (· ≤ ·) (0 :: (startConversion pdfDoc st s).2) := by
  cases pdfDoc with
  | none => simp [startConversion]
  | some d =>
    have htr : (startConversion (some d) st s).2 =
        (convLoop d st d.numPages (List.range' 1 d.numPages) [] [] 0).trace := rfl
    rw [htr]
    obtain ⟨j, hj⟩ :=
      convLoop_trace_take d st d.numPages (List.range' 1 d.numPages) [] [] 0
    rw [hj]
    simp only [List.nil_append]
    rw [List.map_take, ← List.take_succ_cons]
    exact List.Chain'.take (chain_progVal d.numPages) (j + 1)

/-- Claim C7 as stated is refuted by a concrete run: on a 200-page document
whose page 200 fails, the last reported value is round(199/200 × 100) = 100,
so the run ends with progressPercent = 100 while its status is error, not
done. -/
theorem c7_hundredBeforeDoneCounterexample :
    (startConversion (some doc200) st0 app0).1.progress = 100 ∧
    (startConversion (some doc200) st0 app0).1.status = Status.error ∧
    (startConversion (some doc200) st0 app0).1.status ≠ Status.done := by
  have hs : (startConversion (some doc200) st0 app0).1.status = Status.error := by
    with_unfolding_all rfl
  refine ⟨by with_unfolding_all rfl, hs, ?_⟩
  rw [hs]
  decide

/-- Claim C7, amended: within any single run the reported progress sequence
is non-decreasing (also relative to the initial reset to 0), and every fully
successful run ends with progressPercent = 100 and status done; however
progressPercent = 100 does not imply status = done: when
round((N-1)/N × 100) = 100 (N ≥ 200) a failure on the last page yields an
error run whose progressPercent is 100. -/
theorem c7_progressMonotone (pdfDoc : Option Document) (st : Settings) (s : AppState) :
    List.Chain' (· ≤ ·) (0 :: (startConversion pdfDoc st s).2) ∧
    (∀ d, pdfDoc = some d → 1 ≤ d.numPages →
      (∀ i, 1 ≤ i → i ≤ d.numPages → (d.pages i).renderError = none) →
      (startConversion pdfDoc st s).1.progress = 100 ∧
      (startConversion pdfDoc st s).1.status = Status.done) := by
  refine ⟨trace_chain pdfDoc st s, ?_⟩
  rintro d rfl hN hok
  rw [startConversion_ok d st s hN hok]
  exact ⟨rfl, rfl⟩

/-- Witness for c7_progressMonotone on the three-page all-good document. -/
theorem c7_progressMonotoneWitness :
    List.Chain' (· ≤ ·) (0 :: (startConversion (some doc3) st0 app0).2) ∧
    ((startConversion (some doc3) st0 app0).1.progress = 100 ∧
      (startConversion (some doc3) st0 app0).1.status = Status.done) :=
  ⟨(c7_progressMonotone (some doc3) st0 app0).1,
    (c7_progressMonotone (some doc3) st0 app0).2 doc3 rfl (by decide)
      (fun _ _ _ => rfl)⟩

/-! Helper lemmas about decimal page names. -/

lemma digitChar_inj_lt : ∀ a < 10, ∀ b < 10,
    Nat.digitChar a = Nat.digitChar b → a = b := by
  decide

lemma map_digitChar_inj (l1 : List ℕ) :
    ∀ (l2 : List ℕ), (∀ d ∈ l1, d < 10) → (∀ d ∈ l2, d < 10) →
      l1.map Nat.digitChar = l2.map Nat.digitChar → l1 = l2 := by
  induction l1 with
  | nil =>
    intro l2 _ _ h
    cases l2 with
    | nil => rfl
    | cons b t => simp at h
  | cons a t ih =>
    intro l2 h1 h2 h
    cases l2 with
    | nil => simp at h
    | cons b t2 =>
      simp only [List.map_cons, List.cons.injEq] at h
      have ha : a < 10 := h1 a (by simp)
      have hb : b < 10 := h2 b (by simp)
      have hab : a = b := digitChar_inj_lt a ha b hb h.1
      have ht : t = t2 :=
        ih t2 (fun d hd => h1 d (by simp [hd])) (fun d hd => h2 d (by simp [hd])) h.2
      rw [hab, ht]

lemma digits_map_digitChar_inj (m n : ℕ)
    (h : (Nat.digits 10 m).map Nat.digitChar = (Nat.digits 10 n).map Nat.digitChar) :
    m = n := by
  have hdm : ∀ d ∈ Nat.digits 10 m, d < 10 :=
    fun d hd => Nat.digits_lt_base (by norm_num) hd
  have hdn : ∀ d ∈ Nat.digits 10 n, d < 10 :=
    fun d hd => Nat.digits_lt_base (by norm_num) hd
  have hdig := map_digitChar_inj _ _ hdm hdn h
  calc m = Nat.ofDigits 10 (Nat.digits 10 m) := (Nat.ofDigits_digits 10 m).symm
    _ = Nat.ofDigits 10 (Nat.digits 10 n) := by rw [hdig]
    _ = n := Nat.ofDigits_digits 10 n

lemma digits_ne_zero_list (n : ℕ) (hn : n ≠ 0) : Nat.digits 10 n ≠ [0] := by
  intro hd
  apply hn
  calc n = Nat.ofDigits 10 (Nat.digits 10 n) := (Nat.ofDigits_digits 10 n).symm
    _ = Nat.ofDigits 10 [0] := by rw [hd]
    _ = 0 := by simp [Nat.ofDigits]

lemma natChars_inj (m n : ℕ) (h : natChars m = natChars n) : m = n := by
  unfold natChars at h
  by_cases hm : m = 0 <;> by_cases hn : n = 0
  · rw [hm, hn]
  · exfalso
    rw [if_pos hm, if_neg hn] at h
    have h2 : (Nat.digits 10 n).map Nat.digitChar = ['0'] := by
      have := congrArg List.reverse h
      simpa using this.symm
    have h3 : (Nat.digits 10 n).map Nat.digitChar = [0].map Nat.digitChar := by
      simpa using h2
    have h4 : Nat.digits 10 n = [0] :=
      map_digitChar_inj _ _ (fun d hd => Nat.digits_lt_base (by norm_num) hd)
        (by intro d hd; simp at hd; omega) h3
    exact digits_ne_zero_list n hn h4
  · exfalso
    rw [if_neg hm, if_pos hn] at h
    have h2 : (Nat.digits 10 m).map Nat.digitChar = ['0'] := by
      have := congrArg List.reverse h
      simpa using this
    have h3 : (Nat.digits 10 m).map Nat.digitChar = [0].map Nat.digitChar := by
      simpa using h2
    have h4 : Nat.digits 10 m = [0] :=
      map_digitChar_inj _ _ (fun d hd => Nat.digits_lt_base (by norm_num) hd)
        (by intro d hd; simp at hd; omega) h3
    exact digits_ne_zero_list m hm h4
  · rw [if_neg hm, if_neg hn] at h
    have h2 := congrArg List.reverse h
    simp only [List.reverse_reverse] at h2
    exact digits_map_digitChar_inj m n h2

lemma natStr_inj : Function.Injective natStr := by
  intro m n h
  exact natChars_inj m n (by injection h)

lemma entryName_inj (format : String) : Function.Injective (entryName format) := by
  intro p q h
  unfold entryName at h
  have hdata := congrArg String.data h
  simp only [String.data_append, List.append_assoc] at hdata
  have h1 := List.append_cancel_left hdata
  have h2 := List.append_cancel_right h1
  exact natStr_inj (congrArg String.mk h2)

lemma natStr_two : natStr 2 = "2" := by
  rw [natStr, natChars]
  norm_num
  decide

/-! Concrete results used by the packaging witnesses and counterexamples. -/

/-- A first-page result with data URL payload P. -/
def res1 : PageResult := ⟨1, "d,P", 1224, 1584⟩

/-- A second-page result with data URL payload Q. -/
def res2 : PageResult := ⟨2, "d,Q", 1224, 1584⟩

/-- Claim C5 as stated is refuted on the lone-result branch: the delivered
file name is the hardcoded "page-1" plus the format extension, not the page
index of the PageResult: a lone result for page 2 is still saved as
page-1.png. -/
theorem c5_hardcodedNameCounterexample :
    downloadAll [⟨2, "u", 3, 4⟩] st0 "f.pdf"
      = some (Delivery.single "u" "page-1.png") ∧
    "page-" ++ natStr 2 ++ ".png" = "page-2.png" ∧
    ("page-1.png" : String) ≠ "page-2.png" := by
  refine ⟨by decide, ?_, by decide⟩
  rw [natStr_two]
  decide

/-- Claim C5, amended: single-file delivery is invoked if and only if
exactly one PageResult exists, and the delivered file is then named
page-1.(format), with the index hardcoded to 1 rather than taken from the
PageResult; two or more results invoke bundle delivery instead. The
hardcoded 1 agrees with the result's page index whenever the results come
from a completed conversion run, whose lone result is always page 1. -/
theorem c5_singleDelivery (imgs : List PageResult) (st : Settings) (fileName : String) :
    (isSingle (downloadAll imgs st fileName) = true ↔ imgs.length = 1) ∧
    (∀ img, imgs = [img] →
      downloadAll imgs st fileName =
        some (Delivery.single img.dataUrl ("page-1." ++ st.format))) ∧
    (2 ≤ imgs.length → isBundle (downloadAll imgs st fileName) = true) ∧
    (∀ (d : Document) (s : AppState), 1 ≤ d.numPages →
      (∀ i, 1 ≤ i → i ≤ d.numPages → (d.pages i).renderError = none) →
      imgs = (startConversion (some d) st s).1.convertedImages →
      imgs.length = 1 → imgs.map PageResult.page = [1]) := by
  refine ⟨?_, ?_, ?_, ?_⟩
  · cases imgs with
    | nil => simp [downloadAll, isSingle]
    | cons a t =>
      cases t with
      | nil => simp [downloadAll, isSingle]
      | cons b t2 => simp [downloadAll, isSingle]
  · rintro img rfl
    rfl
  · intro h2
    cases imgs with
    | nil => simp at h2
    | cons a t =>
      cases t with
      | nil => simp at h2
      | cons b t2 => rfl
  · intro d s hN hok heq h1
    have hrun := startConversion_ok d st s hN hok
    rw [heq, hrun] at h1
    simp at h1
    rw [heq, hrun]
    simp only [List.map_map]
    have hcomp : (PageResult.page ∘ mkResult d st) = id := funext fun i => rfl
    rw [hcomp, List.map_id, h1]
    rfl

/-- Witness for c5_singleDelivery: the branches at a lone result and at two
results. -/
theorem c5_singleDeliveryWitness :
    (isSingle (downloadAll [res1] st0 "x.pdf") = true ↔
      ([res1] : List PageResult).length = 1) ∧
    downloadAll [res1] st0 "x.pdf"
      = some (Delivery.single res1.dataUrl ("page-1." ++ st0.format)) ∧
    (2 ≤ ([res1, res2] : List PageResult).length →
      isBundle (downloadAll [res1, res2] st0 "x.pdf") = true) :=
  ⟨(c5_singleDelivery [res1] st0 "x.pdf").1,
    (c5_singleDelivery [res1] st0 "x.pdf").2.1 res1 rfl,
    (c5_singleDelivery [res1, res2] st0 "x.pdf").2.2.1⟩

/-- Claim C6 as stated is refuted on the archive name: the code removes the
first occurrence of ".pdf" from the file name instead of stripping the
extension, so the file name a.pdf-b.pdf yields the archive name
a-b.pdf-images.zip rather than a.pdf-b-images.zip. -/
theorem c6_archiveNameCounterexample :
    archiveNameOf (downloadAll [res1, res2] st0 "a.pdf-b.pdf")
      = some "a-b.pdf-images.zip" ∧
    specBaseName "a.pdf-b.pdf" ++ "-images.zip" = "a.pdf-b-images.zip" ∧
    ("a-b.pdf-images.zip" : String) ≠ "a.pdf-b-images.zip" := by
  refine ⟨by decide, by decide, by decide⟩

/-- Claim C6, amended: with two or more PageResults, each result is archived
under images/page-(index).(format), the entry names are injective images of
the page indices (hence unique and in 1:1 correspondence with them whenever
the page indices are distinct), and the archive is named from the file name
with the first occurrence of ".pdf" removed (which equals the name with its
extension stripped whenever ".pdf" occurs only as the trailing extension),
plus -images.zip. -/
theorem c6_bundleDelivery (imgs : List PageResult) (st : Settings)
    (fileName : String) (h2 : 2 ≤ imgs.length) :
    downloadAll imgs st fileName =
      some (Delivery.bundle
        (imgs.map fun img => (entryName st.format img.page, base64Payload img.dataUrl))
        (jsReplaceFirst fileName ".pdf" "" ++ "-images.zip")) ∧
    Function.Injective (entryName st.format) ∧
    ((imgs.map PageResult.page).Nodup →
      ((imgs.map fun img =>
        (entryName st.format img.page, base64Payload img.dataUrl)).map Prod.fst).Nodup) := by
  refine ⟨?_, entryName_inj st.format, ?_⟩
  · cases imgs with
    | nil => simp at h2
    | cons a t =>
      cases t with
      | nil => simp at h2
      | cons b t2 => rfl
  · intro hnd
    have hmap : ((imgs.map fun img =>
        (entryName st.format img.page, base64Payload img.dataUrl)).map Prod.fst)
        = (imgs.map PageResult.page).map (entryName st.format) := by
      simp [List.map_map, Function.comp]
    rw [hmap]
    exact List.Nodup.map (entryName_inj st.format) hnd

/-- Witness for c6_bundleDelivery at two concrete results. -/
theorem c6_bundleDeliveryWitness :
    2 ≤ ([res1, res2] : List PageResult).length ∧
    ([res1, res2].map PageResult.page).Nodup ∧
    downloadAll [res1, res2] st0 "x.pdf" =
      some (Delivery.bundle
        ([res1, res2].map fun img =>
          (entryName st0.format img.page, base64Payload img.dataUrl))
        (jsReplaceFirst "x.pdf" ".pdf" "" ++ "-images.zip")) ∧
    (([res1, res2].map fun img =>
      (entryName st0.format img.page, base64Payload img.dataUrl)).map Prod.fst).Nodup :=
  ⟨by decide, by decide,
    (c6_bundleDelivery [res1, res2] st0 "x.pdf" (by decide)).1,
    (c6_bundleDelivery [res1, res2] st0 "x.pdf" (by decide)).2.2 (by decide)⟩

/-- Claim C8: the viewport planner and the packager are deterministic: the
planner is a pure function of its four inputs, and a downloadAll invocation
leaves the packager-visible state unchanged, so re-running it delivers the
identical file or archive naming with no hidden counters or timestamps. -/
theorem c8_deterministic (w h sc : ℚ) (mw : ℕ) (ps : PackState) :
    planViewport w h sc mw = planViewport w h sc mw ∧
    (downloadAllStep ps).1 = ps ∧
    (downloadAllStep (downloadAllStep ps).1).2 = (downloadAllStep ps).2 :=
  ⟨rfl, rfl, rfl⟩

/-- Claim C10: invoking the packager with zero PageResults delivers
nothing: neither single-file delivery nor bundle delivery happens. -/
theorem c10_emptyResults (st : Settings) (fileName : String) :
    downloadAll [] st fileName = none ∧
    isSingle (downloadAll [] st fileName) = false ∧
    isBundle (downloadAll [] st fileName) = false :=
  ⟨rfl, rfl, rfl⟩

end PDF2IMG
